import Mathlib

/-!
Verification of the two Azure maintenance jobs
(`CleanUpFunctions/BlobCleanupFunction/__init__.py` and
`CleanUpFunctions/DatabaseCleanupFunction/__init__.py`) against their
design specification.

Shallow embedding conventions:
* Timestamps are integers (seconds, UTC).  Python's
  `(now - last_modified).days` on a `timedelta` is floor division of the
  total duration by one day, modelled by `Int.fdiv _ 86400`.
* External effects (SDK calls, ODBC connections, per-item failures) are
  injected through "world" records; the observable behaviour of a run is a
  trace of actions plus an `Except` result mirroring raise/return.
* Python truthiness of the environment strings (`not account_name`) treats
  both an unset variable and an empty string as missing.
-/

set_option maxRecDepth 100000

namespace AzureAdmin

/-! ## Blob cleanup job: data model -/

/-- Run counters of the blob job (`deleted_count`, `processed_count`,
`error_count` in the source). -/
structure Counters where
  processed : Nat
  deleted : Nat
  errors : Nat
deriving DecidableEq, Repr

def Counters.zero : Counters := ⟨0, 0, 0⟩

/-- A blob as enumerated by `container_client.list_blobs()`: the job reads
`blob.name`, `blob.blob_tier` (a string, possibly absent) and
`blob.last_modified` (UTC timestamp, here in seconds). -/
structure Blob where
  name : String
  blob_tier : Option String
  last_modified : Int
deriving DecidableEq, Repr

/-- `age_days = (datetime.now(timezone.utc) - blob.last_modified).days`:
floor of the difference in whole days. -/
def age_days (now lm : Int) : Int := Int.fdiv (now - lm) 86400

/-- The eligibility predicate of the source:
`blob.blob_tier == 'Archive' and age_days > retention_days`. -/
def should_delete (retention_days now : Int) (b : Blob) : Bool :=
  b.blob_tier == some "Archive"
    && decide (retention_days < age_days now b.last_modified)

/-- Outcome of the `container_client.delete_blob` call, injected by the
world: success, `ResourceNotFoundError`, or any other exception. -/
inductive DeleteOutcome where
  | success : DeleteOutcome
  | notFound : DeleteOutcome
  | otherError : DeleteOutcome
deriving DecidableEq, Repr

/-- Observable actions of a blob-job run (SDK calls and log events). -/
inductive BlobAction where
  | connectAttempt : BlobAction
  | listContainersCall : BlobAction
  | deleteCall (container blob : String) : BlobAction
  | warnNotFound (container blob : String) : BlobAction
  | errorDelete (container blob : String) : BlobAction
  | skipBlob (container blob : String) : BlobAction
  | errorContainer (container : String) : BlobAction
deriving DecidableEq, Repr

/-- Body of the inner `for blob in blobs` loop: bump `processed_count`;
if eligible, issue the delete and record its outcome
(success bumps `deleted_count`, `ResourceNotFoundError` logs a warning and
bumps `error_count`, any other exception logs an error and bumps
`error_count`); otherwise log a skip and leave everything else untouched. -/
def processBlob (retention_days now : Int) (cname : String) (c : Counters)
    (ev : Blob × DeleteOutcome) : Counters × List BlobAction :=
  let b := ev.1
  let c1 : Counters := { c with processed := c.processed + 1 }
  if should_delete retention_days now b then
    match ev.2 with
    | .success =>
        ({ c1 with deleted := c1.deleted + 1 },
         [.deleteCall cname b.name])
    | .notFound =>
        ({ c1 with errors := c1.errors + 1 },
         [.deleteCall cname b.name, .warnNotFound cname b.name])
    | .otherError =>
        ({ c1 with errors := c1.errors + 1 },
         [.deleteCall cname b.name, .errorDelete cname b.name])
  else
    (c1, [.skipBlob cname b.name])

/-- A container as seen by the job: its name, and either the blob listing
(each blob paired with the world-chosen outcome of a delete on it) or
`none` when `list_blobs` / the per-container body raises. -/
structure Container where
  name : String
  listing : Option (List (Blob × DeleteOutcome))
deriving Repr

/-- Sequential processing of one container's blobs (the inner loop). -/
def processBlobs (retention_days now : Int) (cname : String)
    (c : Counters) : List (Blob × DeleteOutcome) → Counters × List BlobAction
  | [] => (c, [])
  | ev :: rest =>
      let s1 := processBlob retention_days now cname c ev
      let s2 := processBlobs retention_days now cname s1.1 rest
      (s2.1, s1.2 ++ s2.2)

/-- One iteration of the outer `for container in containers` loop: a
failed enumeration logs an error, bumps `error_count` and continues;
a successful one runs the blob loop. -/
def processContainer (retention_days now : Int) (c : Counters)
    (ct : Container) : Counters × List BlobAction :=
  match ct.listing with
  | none => ({ c with errors := c.errors + 1 }, [.errorContainer ct.name])
  | some evs => processBlobs retention_days now ct.name c evs

/-- Sequential processing of all containers (the outer loop). -/
def processContainers (retention_days now : Int) (c : Counters) :
    List Container → Counters × List BlobAction
  | [] => (c, [])
  | ct :: rest =>
      let s1 := processContainer retention_days now c ct
      let s2 := processContainers retention_days now s1.1 rest
      (s2.1, s1.2 ++ s2.2)

/-- Fatal error classes of either job: `ValueError` caught by the
`except ValueError` arm (configuration), or any other exception reaching
the outer handler. Both are re-raised. -/
inductive JobError where
  | config : JobError
  | fatal : JobError
deriving DecidableEq, Repr

/-- Environment of the blob job. `retention_days` models
`int(os.environ.get("RETENTION_DAYS", "90"))`: `none` = variable unset
(default 90), `some none` = set but not parseable (`int` raises
`ValueError`), `some (some k)` = set and parsed as `k`. -/
structure BlobEnv where
  storage_account_name : Option String
  retention_days : Option (Option Int)

def resolveRetention : Option (Option Int) → Option Int
  | none => some 90
  | some v => v

/-- Python truthiness of an optional environment string: unset or empty
counts as missing. -/
def isBlank : Option String → Bool
  | none => true
  | some s => s == ""

/-- World of the blob job: current time, whether the
`get_account_information` probe and `list_containers` succeed, and the
containers enumerated. -/
structure BlobWorld where
  now : Int
  accountInfoOk : Bool
  listOk : Bool
  containers : List Container

/-- The blob job `main`: configuration resolution and validation, the
account probe, container enumeration, then the cleanup loops.
Returns the action trace and the raise/return result. -/
def blobMain (env : BlobEnv) (w : BlobWorld) :
    List BlobAction × Except JobError Counters :=
  match resolveRetention env.retention_days with
  | none => ([], .error .config)
  | some r =>
      if isBlank env.storage_account_name then ([], .error .config)
      else if !w.accountInfoOk then ([.connectAttempt], .error .fatal)
      else if !w.listOk then
        ([.connectAttempt, .listContainersCall], .error .fatal)
      else
        let s := processContainers r w.now Counters.zero w.containers
        ([.connectAttempt, .listContainersCall] ++ s.2, .ok s.1)

/-! ## Database cleanup job: data model -/

/-- Python `list.split(sep)` on character lists: cut at each leftmost,
non-overlapping occurrence of the (nonempty) separator.  Fuel-bounded;
`fuel = length of the input + 1` always suffices. -/
def pySplitAux (sep : List Char) : Nat → List Char → List Char → List (List Char)
  | _, acc, [] => [acc.reverse]
  | 0, acc, s => [acc.reverse ++ s]
  | fuel + 1, acc, c :: rest =>
      if sep.isPrefixOf (c :: rest) then
        acc.reverse :: pySplitAux sep fuel [] ((c :: rest).drop sep.length)
      else
        pySplitAux sep fuel (c :: acc) rest

/-- Python `str.split(sep)`. -/
def pySplit (sep s : String) : List String :=
  (pySplitAux sep.toList (s.length + 1) [] s.toList).map String.mk

/-- Python `str.strip()`: drop leading and trailing whitespace. -/
def pyStrip (s : String) : String :=
  String.mk
    (((s.toList.dropWhile Char.isWhitespace).reverse.dropWhile
        Char.isWhitespace).reverse)

/-- `query.split("FROM")[1].split("WHERE")[0].strip()` from the source;
`none` models the `IndexError` when the statement has no `FROM`. -/
def extractTableName (q : String) : Option String :=
  match (pySplit "FROM" q)[1]? with
  | none => none
  | some s1 => some (pyStrip ((pySplit "WHERE" s1).headD ""))

/-- First hard-coded delete statement, byte for byte (triple-quoted in the
source, hence the newlines, the 20-space indent and the trailing blank
after the table name). -/
def logsQuery : String :=
  "\n                    DELETE FROM Logs \n                    WHERE CreatedDate < DATEADD(day, ?, GETDATE())\n                    "

/-- Second hard-coded delete statement, byte for byte. -/
def auditQuery : String :=
  "\n                    DELETE FROM AuditTrail \n                    WHERE Timestamp < DATEADD(day, ?, GETDATE())\n                    "

/-- `cleanup_queries` of the source: the fixed target pair. -/
def cleanup_queries : List String := [logsQuery, auditQuery]

/-- Database state: the schema catalog and the rows.  A table exists iff
it has an entry; its rows are timestamps (seconds, UTC) of the
`CreatedDate` / `Timestamp` column. -/
abbrev Db := List (String × List Int)

/-- First entry of the catalog with the given table name, if any
(the `INFORMATION_SCHEMA.TABLES` existence check reads its presence). -/
def dbLookup : Db → String → Option (List Int)
  | [], _ => none
  | p :: rest, t => if p.1 == t then some p.2 else dbLookup rest t

/-- Replace the rows of every entry named `t`; keys are untouched. -/
def dbUpdate : Db → String → List Int → Db
  | [], _, _ => []
  | p :: rest, t, rs =>
      (if p.1 == t then (p.1, rs) else p) :: dbUpdate rest t rs

/-- `DATEADD(day, -retention_days, GETDATE())` on second-valued
timestamps: the parameter passed is `-int(retention_days)`. -/
def dbCutoff (now retention_days : Int) : Int :=
  now + (-retention_days) * 86400

/-- World-injected failure of one loop iteration: which statement of the
per-query `try` block raises, if any. -/
inductive QueryFault where
  | ok : QueryFault
  | catalogFail : QueryFault
  | countFail : QueryFault
  | deleteFail : QueryFault
  | commitFail : QueryFault
deriving DecidableEq, Repr

/-- Observable actions of a database-job run. `errorRollback t` is the
per-query exception handler: the error log naming `t` followed by
`conn.rollback()`. -/
inductive DbAction where
  | getToken : DbAction
  | attemptMSI : DbAction
  | attemptToken : DbAction
  | versionQuery : DbAction
  | catalogQuery (t : String) : DbAction
  | warnSkip (t : String) : DbAction
  | countQuery (t : String) : DbAction
  | deleteExec (t : String) : DbAction
  | commitCall (t : String) : DbAction
  | errorRollback (t : String) : DbAction
deriving DecidableEq, Repr

/-- Marks the actions of the connection phase (token acquisition, the two
connection attempts, the version probe), as opposed to cleanup-loop
actions. -/
def DbAction.isConn : DbAction → Bool
  | .getToken => true
  | .attemptMSI => true
  | .attemptToken => true
  | .versionQuery => true
  | _ => false

/-- The table a cleanup-loop action is about, if any. -/
def DbAction.tbl : DbAction → Option String
  | .catalogQuery t => some t
  | .warnSkip t => some t
  | .countQuery t => some t
  | .deleteExec t => some t
  | .commitCall t => some t
  | .errorRollback t => some t
  | _ => none

/-- One iteration of the `for query in cleanup_queries` loop: extract the
table name, check the schema catalog (absence is a warning and a skip),
count the rows to delete (diagnostic), delete rows older than the cutoff,
commit; any raise inside the `try` is absorbed by a rollback that leaves
the committed state unchanged.  `total_deleted += deleted_rows` precedes
`conn.commit()` in the source, so a commit failure still adds the count.
The `none` branch (no `FROM` in the statement) is unreachable for the two
fixed statements. -/
def runQuery (retention_days now : Int) (fault : QueryFault) (db : Db)
    (q : String) : Db × Nat × List DbAction :=
  match extractTableName q with
  | none => (db, 0, [])
  | some t =>
      match fault, dbLookup db t with
      | .catalogFail, _ => (db, 0, [.catalogQuery t, .errorRollback t])
      | _, none => (db, 0, [.catalogQuery t, .warnSkip t])
      | .countFail, some _ =>
          (db, 0, [.catalogQuery t, .countQuery t, .errorRollback t])
      | .deleteFail, some _ =>
          (db, 0,
           [.catalogQuery t, .countQuery t, .deleteExec t, .errorRollback t])
      | .commitFail, some rows =>
          let kept := rows.filter
            (fun ts => !decide (ts < dbCutoff now retention_days))
          (db, rows.length - kept.length,
           [.catalogQuery t, .countQuery t, .deleteExec t, .commitCall t,
            .errorRollback t])
      | .ok, some rows =>
          let kept := rows.filter
            (fun ts => !decide (ts < dbCutoff now retention_days))
          (dbUpdate db t kept, rows.length - kept.length,
           [.catalogQuery t, .countQuery t, .deleteExec t, .commitCall t])

/-- The cleanup loop over the (indexed) query list, threading the
database state and `total_deleted`. -/
def runQueries (retention_days now : Int) (fault : Nat → QueryFault) :
    List (Nat × String) → Db → Nat → Db × Nat × List DbAction
  | [], db, tot => (db, tot, [])
  | (i, q) :: rest, db, tot =>
      let s1 := runQuery retention_days now (fault i) db q
      let s2 := runQueries retention_days now fault rest s1.1 (tot + s1.2.1)
      (s2.1, s2.2.1, s1.2.2 ++ s2.2.2)

/-- Environment of the database job.  `RETENTION_DAYS` stays a string in
the source and is parsed with `int()` at each execute; it is modelled by
its parsed value (a parse failure there behaves as a per-query fault). -/
structure DbEnv where
  sql_server : Option String
  sql_database : Option String
  retention_days : Int

/-- World of the database job: token acquisition, the two connection
attempts, the `SELECT @@VERSION` probe, per-query fault injection and the
database contents. -/
structure DbWorld where
  now : Int
  tokenAcqOk : Bool
  msiOk : Bool
  tokenOk : Bool
  versionOk : Bool
  fault : Nat → QueryFault
  db : Db

/-- Which connection attempt succeeded. -/
inductive ConnMethod where
  | msi : ConnMethod
  | token : ConnMethod
deriving DecidableEq, Repr

/-- Continuation of `dbMain` once a connection is established: the
version probe, then the cleanup loop.  Returns the connection method, the
final database state and `total_deleted`. -/
def dbAfterConnect (env : DbEnv) (w : DbWorld) (m : ConnMethod)
    (tr : List DbAction) :
    List DbAction × Except JobError (ConnMethod × Db × Nat) :=
  if !w.versionOk then (tr ++ [.versionQuery], .error .fatal)
  else
    let s := runQueries env.retention_days w.now w.fault
      cleanup_queries.enum w.db 0
    (tr ++ [.versionQuery] ++ s.2.2, .ok (m, s.1, s.2.1))

/-- The database job `main`: configuration validation, unconditional
token acquisition (`credential.get_token` precedes any connection
attempt in the source), the MSI connection attempt, the token fallback on
`pyodbc.Error`, then the cleanup loop.  Raise is `.error`. -/
def dbMain (env : DbEnv) (w : DbWorld) :
    List DbAction × Except JobError (ConnMethod × Db × Nat) :=
  if isBlank env.sql_server || isBlank env.sql_database then
    ([], .error .config)
  else if !w.tokenAcqOk then ([.getToken], .error .fatal)
  else if w.msiOk then
    dbAfterConnect env w .msi [.getToken, .attemptMSI]
  else if w.tokenOk then
    dbAfterConnect env w .token [.getToken, .attemptMSI, .attemptToken]
  else ([.getToken, .attemptMSI, .attemptToken], .error .fatal)

/-! ## Helper lemmas: blob job -/

lemma processBlob_trace_indep (r now : Int) (cn : String) (c c2 : Counters)
    (ev : Blob × DeleteOutcome) :
    (processBlob r now cn c ev).2 = (processBlob r now cn c2 ev).2 := by
  obtain ⟨b, oc⟩ := ev
  cases h : should_delete r now b <;> cases oc <;> simp [processBlob, h]

lemma processBlob_deleteCall_mem (r now : Int) (cn cn2 bn : String)
    (c : Counters) (ev : Blob × DeleteOutcome) :
    BlobAction.deleteCall cn2 bn ∈ (processBlob r now cn c ev).2
      ↔ cn2 = cn ∧ bn = ev.1.name ∧ should_delete r now ev.1 = true := by
  obtain ⟨b, oc⟩ := ev
  cases h : should_delete r now b <;> cases oc <;> simp [processBlob, h]

lemma processBlobs_trace_indep (r now : Int) (cn : String)
    (evs : List (Blob × DeleteOutcome)) :
    ∀ c c2 : Counters,
      (processBlobs r now cn c evs).2 = (processBlobs r now cn c2 evs).2 := by
  induction evs with
  | nil => intro c c2; rfl
  | cons ev rest ih =>
      intro c c2
      simp only [processBlobs]
      rw [processBlob_trace_indep r now cn c c2 ev,
        ih (processBlob r now cn c ev).1 (processBlob r now cn c2 ev).1]

lemma processBlobs_mem (r now : Int) (cn : String) (a : BlobAction)
    (evs : List (Blob × DeleteOutcome)) :
    ∀ c : Counters,
      a ∈ (processBlobs r now cn c evs).2
        ↔ ∃ ev ∈ evs, a ∈ (processBlob r now cn Counters.zero ev).2 := by
  induction evs with
  | nil => intro c; simp [processBlobs]
  | cons ev rest ih =>
      intro c
      simp only [processBlobs, List.mem_append, List.mem_cons]
      rw [ih (processBlob r now cn c ev).1,
        processBlob_trace_indep r now cn c Counters.zero ev]
      constructor
      · rintro (h | ⟨ev2, hev2, h2⟩)
        · exact ⟨ev, Or.inl rfl, h⟩
        · exact ⟨ev2, Or.inr hev2, h2⟩
      · rintro ⟨ev2, hev2 | hev2, h2⟩
        · exact Or.inl (hev2 ▸ h2)
        · exact Or.inr ⟨ev2, hev2, h2⟩

lemma processContainer_trace_indep (r now : Int) (c c2 : Counters)
    (ct : Container) :
    (processContainer r now c ct).2 = (processContainer r now c2 ct).2 := by
  cases h : ct.listing with
  | none => simp [processContainer, h]
  | some evs =>
      simp [processContainer, h, processBlobs_trace_indep r now ct.name evs c c2]

lemma processContainers_trace_indep (r now : Int) (cts : List Container) :
    ∀ c c2 : Counters,
      (processContainers r now c cts).2 = (processContainers r now c2 cts).2 := by
  induction cts with
  | nil => intro c c2; rfl
  | cons ct rest ih =>
      intro c c2
      simp only [processContainers]
      rw [processContainer_trace_indep r now c c2 ct,
        ih (processContainer r now c ct).1 (processContainer r now c2 ct).1]

lemma processContainers_mem (r now : Int) (a : BlobAction)
    (cts : List Container) :
    ∀ c : Counters,
      a ∈ (processContainers r now c cts).2
        ↔ ∃ ct ∈ cts, a ∈ (processContainer r now Counters.zero ct).2 := by
  induction cts with
  | nil => intro c; simp [processContainers]
  | cons ct rest ih =>
      intro c
      simp only [processContainers, List.mem_append, List.mem_cons]
      rw [ih (processContainer r now c ct).1,
        processContainer_trace_indep r now c Counters.zero ct]
      constructor
      · rintro (h | ⟨ct2, hct2, h2⟩)
        · exact ⟨ct, Or.inl rfl, h⟩
        · exact ⟨ct2, Or.inr hct2, h2⟩
      · rintro ⟨ct2, hct2 | hct2, h2⟩
        · exact Or.inl (hct2 ▸ h2)
        · exact Or.inr ⟨ct2, hct2, h2⟩

lemma processContainer_mem (r now : Int) (ct : Container) (a : BlobAction) :
    a ∈ (processContainer r now Counters.zero ct).2
      ↔ (ct.listing = none ∧ a = .errorContainer ct.name)
        ∨ (∃ evs, ct.listing = some evs
            ∧ ∃ ev ∈ evs, a ∈ (processBlob r now ct.name Counters.zero ev).2) := by
  cases h : ct.listing with
  | none => simp [processContainer, h]
  | some evs => simp [processContainer, h, processBlobs_mem]

lemma processBlob_counters (r now : Int) (cn : String) (c : Counters)
    (ev : Blob × DeleteOutcome) :
    (processBlob r now cn c ev).1.processed = c.processed + 1
  ∧ c.deleted ≤ (processBlob r now cn c ev).1.deleted
  ∧ (processBlob r now cn c ev).1.deleted ≤ c.deleted + 1
  ∧ c.errors ≤ (processBlob r now cn c ev).1.errors
  ∧ (processBlob r now cn c ev).1.errors ≤ c.errors + 1
  ∧ (processBlob r now cn c ev).1.deleted + (processBlob r now cn c ev).1.errors
      ≤ c.deleted + c.errors + 1 := by
  obtain ⟨b, oc⟩ := ev
  cases h : should_delete r now b <;> cases oc <;> simp [processBlob, h] <;> omega

lemma processBlobs_counters (r now : Int) (cn : String)
    (evs : List (Blob × DeleteOutcome)) :
    ∀ c : Counters,
      c.processed ≤ (processBlobs r now cn c evs).1.processed
    ∧ c.deleted ≤ (processBlobs r now cn c evs).1.deleted
    ∧ c.errors ≤ (processBlobs r now cn c evs).1.errors
    ∧ (processBlobs r now cn c evs).1.deleted + c.processed
        ≤ (processBlobs r now cn c evs).1.processed + c.deleted := by
  induction evs with
  | nil => intro c; simp [processBlobs]; omega
  | cons ev rest ih =>
      intro c
      simp only [processBlobs]
      have h1 := processBlob_counters r now cn c ev
      have h2 := ih (processBlob r now cn c ev).1
      omega

lemma processContainer_counters (r now : Int) (c : Counters)
    (ct : Container) :
    c.processed ≤ (processContainer r now c ct).1.processed
  ∧ c.deleted ≤ (processContainer r now c ct).1.deleted
  ∧ c.errors ≤ (processContainer r now c ct).1.errors
  ∧ (processContainer r now c ct).1.deleted + c.processed
      ≤ (processContainer r now c ct).1.processed + c.deleted := by
  cases h : ct.listing with
  | none => simp [processContainer, h]; omega
  | some evs =>
      have := processBlobs_counters r now ct.name evs c
      simp only [processContainer, h]
      omega

lemma processContainers_counters (r now : Int) (cts : List Container) :
    ∀ c : Counters,
      c.processed ≤ (processContainers r now c cts).1.processed
    ∧ c.deleted ≤ (processContainers r now c cts).1.deleted
    ∧ c.errors ≤ (processContainers r now c cts).1.errors
    ∧ (processContainers r now c cts).1.deleted + c.processed
        ≤ (processContainers r now c cts).1.processed + c.deleted := by
  induction cts with
  | nil => intro c; simp [processContainers]; omega
  | cons ct rest ih =>
      intro c
      simp only [processContainers]
      have h1 := processContainer_counters r now c ct
      have h2 := ih (processContainer r now c ct).1
      omega

/-! ## Helper lemmas: database job -/

lemma extract_logs : extractTableName logsQuery = some "Logs" := by decide

lemma extract_audit : extractTableName auditQuery = some "AuditTrail" := by
  decide

lemma dbLookup_dbUpdate_ne (db : Db) (t : String) (rs : List Int)
    (t2 : String) (h : t2 ≠ t) :
    dbLookup (dbUpdate db t rs) t2 = dbLookup db t2 := by
  induction db with
  | nil => rfl
  | cons p rest ih =>
      simp only [dbUpdate, dbLookup]
      by_cases hp : p.1 = t
      · have h2 : t ≠ t2 := fun hh => h hh.symm
        simp [hp, h2, ih]
      · simp [hp, ih]

lemma runQuery_deleteFail (r now : Int) (db : Db) (q : String) :
    (runQuery r now .deleteFail db q).1 = db
  ∧ (runQuery r now .deleteFail db q).2.1 = 0 := by
  cases hq : extractTableName q with
  | none => simp [runQuery, hq]
  | some t => cases hdb : dbLookup db t <;> simp [runQuery, hq, hdb]

lemma runQuery_db_other (r now : Int) (f : QueryFault) (db : Db)
    (q : String) (t t2 : String) (hq : extractTableName q = some t)
    (hne : t2 ≠ t) :
    dbLookup (runQuery r now f db q).1 t2 = dbLookup db t2 := by
  cases f <;> cases hdb : dbLookup db t <;>
    simp [runQuery, hq, hdb, dbLookup_dbUpdate_ne _ _ _ _ hne]

lemma runQuery_catalog_mem (r now : Int) (f : QueryFault) (db : Db)
    (q : String) (t : String) (hq : extractTableName q = some t) :
    DbAction.catalogQuery t ∈ (runQuery r now f db q).2.2 := by
  cases f <;> cases hdb : dbLookup db t <;> simp [runQuery, hq, hdb]

lemma runQuery_actions (r now : Int) (f : QueryFault) (db : Db)
    (q : String) (t : String) (hq : extractTableName q = some t) :
    ∀ a ∈ (runQuery r now f db q).2.2,
      a = DbAction.catalogQuery t ∨ a = DbAction.warnSkip t
      ∨ a = DbAction.countQuery t ∨ a = DbAction.deleteExec t
      ∨ a = DbAction.commitCall t ∨ a = DbAction.errorRollback t := by
  intro a ha
  cases f <;> cases hdb : dbLookup db t <;>
    simp [runQuery, hq, hdb] at ha <;> tauto

lemma runQuery_absent (r now : Int) (f : QueryFault) (db : Db)
    (q : String) (t : String) (hq : extractTableName q = some t)
    (hdb : dbLookup db t = none) (hf : f ≠ QueryFault.catalogFail) :
    runQuery r now f db q
      = (db, 0, [DbAction.catalogQuery t, DbAction.warnSkip t]) := by
  cases f <;> simp [runQuery, hq, hdb]
  exact absurd rfl hf

lemma runQuery_no_conn (r now : Int) (f : QueryFault) (db : Db)
    (q : String) :
    DbAction.attemptToken ∉ (runQuery r now f db q).2.2 := by
  cases hq : extractTableName q with
  | none => simp [runQuery, hq]
  | some t =>
      intro ha
      rcases runQuery_actions r now f db q t hq _ ha with h|h|h|h|h|h <;>
        simp at h

lemma runQueries_no_conn (r now : Int) (fault : Nat → QueryFault)
    (qs : List (Nat × String)) :
    ∀ (db : Db) (tot : Nat),
      DbAction.attemptToken ∉ (runQueries r now fault qs db tot).2.2 := by
  induction qs with
  | nil => intro db tot; simp [runQueries]
  | cons p rest ih =>
      intro db tot
      obtain ⟨i, q⟩ := p
      simp only [runQueries]
      intro hmem
      rcases List.mem_append.mp hmem with h | h
      · exact runQuery_no_conn r now (fault i) db q h
      · exact ih _ _ h

lemma cleanup_enum :
    cleanup_queries.enum = [(0, logsQuery), (1, auditQuery)] := rfl

lemma dbMain_msi (env : DbEnv) (w : DbWorld)
    (hs : isBlank env.sql_server = false)
    (hd : isBlank env.sql_database = false)
    (ht : w.tokenAcqOk = true) (hm : w.msiOk = true)
    (hv : w.versionOk = true) :
    dbMain env w
      = ([DbAction.getToken, DbAction.attemptMSI, DbAction.versionQuery]
          ++ (runQueries env.retention_days w.now w.fault
              cleanup_queries.enum w.db 0).2.2,
         Except.ok (ConnMethod.msi,
           (runQueries env.retention_days w.now w.fault
             cleanup_queries.enum w.db 0).1,
           (runQueries env.retention_days w.now w.fault
             cleanup_queries.enum w.db 0).2.1)) := by
  simp [dbMain, dbAfterConnect, hs, hd, ht, hm, hv]

lemma dbMain_token (env : DbEnv) (w : DbWorld)
    (hs : isBlank env.sql_server = false)
    (hd : isBlank env.sql_database = false)
    (ht : w.tokenAcqOk = true) (hm : w.msiOk = false)
    (hk : w.tokenOk = true) (hv : w.versionOk = true) :
    dbMain env w
      = ([DbAction.getToken, DbAction.attemptMSI, DbAction.attemptToken,
          DbAction.versionQuery]
          ++ (runQueries env.retention_days w.now w.fault
              cleanup_queries.enum w.db 0).2.2,
         Except.ok (ConnMethod.token,
           (runQueries env.retention_days w.now w.fault
             cleanup_queries.enum w.db 0).1,
           (runQueries env.retention_days w.now w.fault
             cleanup_queries.enum w.db 0).2.1)) := by
  simp [dbMain, dbAfterConnect, hs, hd, ht, hm, hk, hv]

lemma dbMain_connected (env : DbEnv) (w : DbWorld)
    (hs : isBlank env.sql_server = false)
    (hd : isBlank env.sql_database = false)
    (ht : w.tokenAcqOk = true) (hv : w.versionOk = true)
    (hc : w.msiOk = true ∨ w.tokenOk = true) :
    ∃ (m : ConnMethod) (pre : List DbAction),
      (∀ a ∈ pre, a.isConn = true)
    ∧ dbMain env w
        = (pre ++ (runQueries env.retention_days w.now w.fault
            cleanup_queries.enum w.db 0).2.2,
           Except.ok (m,
             (runQueries env.retention_days w.now w.fault
               cleanup_queries.enum w.db 0).1,
             (runQueries env.retention_days w.now w.fault
               cleanup_queries.enum w.db 0).2.1)) := by
  by_cases hm : w.msiOk = true
  · refine ⟨.msi, _, ?_, dbMain_msi env w hs hd ht hm hv⟩
    intro a ha
    fin_cases ha <;> rfl
  · have hm2 : w.msiOk = false := by simpa using hm
    have hk : w.tokenOk = true := by
      rcases hc with h | h
      · exact absurd h hm
      · exact h
    refine ⟨.token, _, ?_, dbMain_token env w hs hd ht hm2 hk hv⟩
    intro a ha
    fin_cases ha <;> rfl

lemma runQueries_pair_db (r now : Int) (fault : Nat → QueryFault)
    (db : Db) :
    (runQueries r now fault cleanup_queries.enum db 0).1
      = (runQuery r now (fault 1)
          (runQuery r now (fault 0) db logsQuery).1 auditQuery).1 := rfl

lemma runQueries_pair_trace (r now : Int) (fault : Nat → QueryFault)
    (db : Db) :
    (runQueries r now fault cleanup_queries.enum db 0).2.2
      = (runQuery r now (fault 0) db logsQuery).2.2
        ++ ((runQuery r now (fault 1)
            (runQuery r now (fault 0) db logsQuery).1 auditQuery).2.2
          ++ []) := rfl

lemma runQuery_tbl (r now : Int) (f : QueryFault) (db : Db) (q : String)
    (t : String) (hq : extractTableName q = some t) :
    ∀ a ∈ (runQuery r now f db q).2.2, a.tbl = some t := by
  intro a ha
  rcases runQuery_actions r now f db q t hq _ ha with h|h|h|h|h|h <;>
    subst h <;> rfl

lemma dbMain_loop_action_mem (env : DbEnv) (w : DbWorld)
    (hs : isBlank env.sql_server = false)
    (hd : isBlank env.sql_database = false)
    (ht : w.tokenAcqOk = true) (hv : w.versionOk = true)
    (hc : w.msiOk = true ∨ w.tokenOk = true)
    (a : DbAction) (hnc : a.isConn = false) :
    a ∈ (dbMain env w).1
      ↔ a ∈ (runQuery env.retention_days w.now (w.fault 0) w.db
          logsQuery).2.2
        ∨ a ∈ (runQuery env.retention_days w.now (w.fault 1)
            (runQuery env.retention_days w.now (w.fault 0) w.db
              logsQuery).1 auditQuery).2.2 := by
  obtain ⟨m, pre, hpre, heq⟩ := dbMain_connected env w hs hd ht hv hc
  rw [heq]
  simp only [List.mem_append, runQueries_pair_trace, List.append_nil,
    List.not_mem_nil, or_false]
  constructor
  · rintro (h | h)
    · exact absurd (hpre a h) (by simp [hnc])
    · exact h
  · exact Or.inr

/-! ## Claim theorems -/

/-- C1: a blob enumerated by the cleanup job gets a delete call iff its
storage tier equals Archive and its age in whole days (floor of
`now - last_modified`) strictly exceeds `retention_days`; every blob
failing the predicate is left untouched (only `processed_count` moves,
and a skip is logged).  Stated per processed blob and for the whole run:
every enumerated eligible blob's delete call is in the run's trace, and
every delete call of the trace belongs to an enumerated eligible blob. -/
theorem blob_delete_iff_archive_expired (r now : Int) (cn : String)
    (c : Counters) (b : Blob) (oc : DeleteOutcome) (c0 : Counters)
    (cts : List Container) :
    (BlobAction.deleteCall cn b.name ∈ (processBlob r now cn c (b, oc)).2
      ↔ should_delete r now b = true)
  ∧ (should_delete r now b = false →
      processBlob r now cn c (b, oc)
        = ({ c with processed := c.processed + 1 },
           [BlobAction.skipBlob cn b.name]))
  ∧ (∀ ct ∈ cts, ∀ evs, ct.listing = some evs → ∀ ev ∈ evs,
      should_delete r now ev.1 = true →
      BlobAction.deleteCall ct.name ev.1.name
        ∈ (processContainers r now c0 cts).2)
  ∧ (∀ cn2 bn,
      BlobAction.deleteCall cn2 bn ∈ (processContainers r now c0 cts).2 →
      ∃ ct ∈ cts, ct.name = cn2 ∧ ∃ evs, ct.listing = some evs
        ∧ ∃ ev ∈ evs, ev.1.name = bn ∧ should_delete r now ev.1 = true) := by
  refine ⟨?_, ?_, ?_, ?_⟩
  · simpa using processBlob_deleteCall_mem r now cn cn b.name c (b, oc)
  · intro h; simp [processBlob, h]
  · intro ct hct evs hevs ev hev hsd
    rw [processContainers_mem]
    refine ⟨ct, hct, ?_⟩
    rw [processContainer_mem]
    exact Or.inr ⟨evs, hevs, ev, hev,
      (processBlob_deleteCall_mem r now ct.name ct.name ev.1.name
        Counters.zero ev).mpr ⟨rfl, rfl, hsd⟩⟩
  · intro cn2 bn h
    rw [processContainers_mem] at h
    obtain ⟨ct, hct, h2⟩ := h
    rw [processContainer_mem] at h2
    rcases h2 with ⟨_, h2⟩ | ⟨evs, hevs, ev, hev, hmem⟩
    · exact absurd h2 (by simp)
    · obtain ⟨hcn, hbn, hsd⟩ :=
        (processBlob_deleteCall_mem r now ct.name cn2 bn
          Counters.zero ev).mp hmem
      exact ⟨ct, hct, hcn.symm, evs, hevs, ev, hev, hbn.symm, hsd⟩

/-- C1 witness: with `retention_days = 0` and a two-day-old Archive blob
in one container, the run's trace contains the delete call, and a Hot
blob is left untouched. -/
theorem blob_delete_iff_archive_expired_witness :
    BlobAction.deleteCall "c" "a"
      ∈ (processContainers 0 172800 Counters.zero
          [⟨"c", some [(⟨"a", some "Archive", 0⟩, DeleteOutcome.success)]⟩]).2
  ∧ processBlob 0 172800 "c" Counters.zero
      (⟨"h", some "Hot", 0⟩, DeleteOutcome.success)
      = ({ Counters.zero with processed := 1 },
         [BlobAction.skipBlob "c" "h"]) :=
  ⟨(blob_delete_iff_archive_expired 0 172800 "c" Counters.zero
      ⟨"a", some "Archive", 0⟩ DeleteOutcome.success Counters.zero
      [⟨"c", some [(⟨"a", some "Archive", 0⟩, DeleteOutcome.success)]⟩]).2.2.1
    ⟨"c", some [(⟨"a", some "Archive", 0⟩, DeleteOutcome.success)]⟩ (by simp)
    [(⟨"a", some "Archive", 0⟩, DeleteOutcome.success)] rfl
    (⟨"a", some "Archive", 0⟩, DeleteOutcome.success) (by simp) (by decide),
   (blob_delete_iff_archive_expired 0 172800 "c" Counters.zero
      ⟨"h", some "Hot", 0⟩ DeleteOutcome.success Counters.zero []).2.1
    (by decide)⟩

/-- C6: when the delete of an eligible blob hits a resource-not-found
error, the job logs a warning, bumps `error_count` (not `deleted_count`),
continues with the remaining blobs, and a run with working configuration,
account probe and container listing still finishes without raising. -/
theorem blob_notfound_race_benign (r now : Int) (cn : String)
    (c : Counters) (b : Blob) (rest : List (Blob × DeleteOutcome))
    (env : BlobEnv) (w : BlobWorld) (r2 : Int)
    (h : should_delete r now b = true) :
    processBlob r now cn c (b, DeleteOutcome.notFound)
      = ({ c with processed := c.processed + 1, errors := c.errors + 1 },
         [BlobAction.deleteCall cn b.name, BlobAction.warnNotFound cn b.name])
  ∧ processBlobs r now cn c ((b, DeleteOutcome.notFound) :: rest)
      = ((processBlobs r now cn
            { c with processed := c.processed + 1, errors := c.errors + 1 }
            rest).1,
         [BlobAction.deleteCall cn b.name, BlobAction.warnNotFound cn b.name]
           ++ (processBlobs r now cn
            { c with processed := c.processed + 1, errors := c.errors + 1 }
            rest).2)
  ∧ (resolveRetention env.retention_days = some r2 →
      isBlank env.storage_account_name = false →
      w.accountInfoOk = true → w.listOk = true →
      ∃ cs, (blobMain env w).2 = Except.ok cs) := by
  refine ⟨by simp [processBlob, h], ?_, ?_⟩
  · simp only [processBlobs, processBlob, h]
    simp
  · intro h1 h2 h3 h4
    exact ⟨(processContainers r2 w.now Counters.zero w.containers).1,
      by simp [blobMain, h1, h2, h3, h4]⟩

/-- C6 witness: a 100-day-old Archive blob whose delete races with an
external deletion. -/
theorem blob_notfound_race_benign_witness :
    processBlob 90 8640000 "c" Counters.zero
      (⟨"x", some "Archive", 0⟩, DeleteOutcome.notFound)
      = ({ Counters.zero with processed := 1, errors := 1 },
         [BlobAction.deleteCall "c" "x", BlobAction.warnNotFound "c" "x"]) :=
  (blob_notfound_race_benign 90 8640000 "c" Counters.zero
    ⟨"x", some "Archive", 0⟩ [] ⟨some "acct", none⟩ ⟨0, true, true, []⟩ 90
    (by decide)).1

/-- C7: a failure while enumerating one container's blobs logs an error,
bumps `error_count`, leaves the other counters alone, and processing
continues with the next container; a run with working configuration,
probe and listing still returns instead of raising. -/
theorem container_failure_isolated (r now : Int) (c : Counters)
    (ct : Container) (rest : List Container)
    (env : BlobEnv) (w : BlobWorld) (r2 : Int)
    (h : ct.listing = none) :
    processContainer r now c ct
      = ({ c with errors := c.errors + 1 },
         [BlobAction.errorContainer ct.name])
  ∧ processContainers r now c (ct :: rest)
      = ((processContainers r now { c with errors := c.errors + 1 } rest).1,
         BlobAction.errorContainer ct.name
           :: (processContainers r now { c with errors := c.errors + 1 }
                rest).2)
  ∧ (resolveRetention env.retention_days = some r2 →
      isBlank env.storage_account_name = false →
      w.accountInfoOk = true → w.listOk = true →
      ∃ cs, (blobMain env w).2 = Except.ok cs) := by
  refine ⟨by simp [processContainer, h], ?_, ?_⟩
  · simp only [processContainers, processContainer, h]
    simp
  · intro h1 h2 h3 h4
    exact ⟨(processContainers r2 w.now Counters.zero w.containers).1,
      by simp [blobMain, h1, h2, h3, h4]⟩

/-- C7 witness: a single container whose enumeration fails. -/
theorem container_failure_isolated_witness :
    processContainer 90 0 Counters.zero ⟨"broken", none⟩
      = ({ Counters.zero with errors := 1 },
         [BlobAction.errorContainer "broken"]) :=
  (container_failure_isolated 90 0 Counters.zero ⟨"broken", none⟩ []
    ⟨some "acct", none⟩ ⟨0, true, true, []⟩ 90 rfl).1

/-- C8 counterexample: with `retention_days = 0`, an Archive blob of
positive age (one hour old: `now - last_modified = 3600 > 0`) is NOT
eligible, because `age_days = floor(3600 s / 1 day) = 0` is not strictly
greater than `0`.  The claim "any positive age" fails. -/
theorem archive_hour_old_not_eligible_at_zero_retention :
    ((0 : Int) < 3600 - 0)
  ∧ should_delete 0 3600 ⟨"x", some "Archive", 0⟩ = false := by
  decide

/-- C8 (amended): with `retention_days = 0`, every Archive blob whose age
is at least one whole day (`now - last_modified ≥ 86400` seconds, i.e.
`age_days ≥ 1`) is eligible for deletion. -/
theorem archive_full_day_eligible_at_zero_retention (now : Int) (b : Blob)
    (ht : b.blob_tier = some "Archive")
    (ha : 86400 ≤ now - b.last_modified) :
    should_delete 0 now b = true := by
  have hrw : age_days now b.last_modified = (now - b.last_modified) / 86400 :=
    Int.fdiv_eq_ediv _ (by decide)
  simp only [should_delete, hrw, ht, beq_self_eq_true, Bool.true_and,
    decide_eq_true_eq]
  omega

/-- C8 witness: an Archive blob exactly one day old at retention 0. -/
theorem archive_full_day_eligible_at_zero_retention_witness :
    should_delete 0 86400 ⟨"x", some "Archive", 0⟩ = true :=
  archive_full_day_eligible_at_zero_retention 86400
    ⟨"x", some "Archive", 0⟩ rfl (by decide)

/-- C10: counter invariants of the blob job.  Per blob event,
`processed_count` goes up by exactly one, `deleted_count` and
`error_count` are non-decreasing and go up by at most one each and at
most one in total; over any run segment all three counters are
non-decreasing; a whole run starts from zero counters (as any successful
`blobMain` does) and ends with `deleted_count ≤ processed_count`. -/
theorem blob_counter_invariants (r now : Int) (cn : String) (c : Counters)
    (ev : Blob × DeleteOutcome) (cts : List Container)
    (env : BlobEnv) (w : BlobWorld) (r2 : Int) :
    ((processBlob r now cn c ev).1.processed = c.processed + 1
      ∧ c.deleted ≤ (processBlob r now cn c ev).1.deleted
      ∧ (processBlob r now cn c ev).1.deleted ≤ c.deleted + 1
      ∧ c.errors ≤ (processBlob r now cn c ev).1.errors
      ∧ (processBlob r now cn c ev).1.errors ≤ c.errors + 1
      ∧ (processBlob r now cn c ev).1.deleted
          + (processBlob r now cn c ev).1.errors
          ≤ c.deleted + c.errors + 1)
  ∧ (c.processed ≤ (processContainers r now c cts).1.processed
      ∧ c.deleted ≤ (processContainers r now c cts).1.deleted
      ∧ c.errors ≤ (processContainers r now c cts).1.errors)
  ∧ (processContainers r now Counters.zero cts).1.deleted
      ≤ (processContainers r now Counters.zero cts).1.processed
  ∧ (resolveRetention env.retention_days = some r2 →
      isBlank env.storage_account_name = false →
      w.accountInfoOk = true → w.listOk = true →
      (blobMain env w).2
        = Except.ok (processContainers r2 w.now Counters.zero
            w.containers).1) := by
  refine ⟨processBlob_counters r now cn c ev, ?_, ?_, ?_⟩
  · have := processContainers_counters r now cts c
    exact ⟨this.1, this.2.1, this.2.2.1⟩
  · have := processContainers_counters r now cts Counters.zero
    simp only [Counters.zero] at this ⊢
    omega
  · intro h1 h2 h3 h4
    simp [blobMain, h1, h2, h3, h4]

/-- C10 witness: a successful one-container run starting at zero. -/
theorem blob_counter_invariants_witness :
    (blobMain ⟨some "acct", none⟩
        ⟨0, true, true, [⟨"c", some []⟩]⟩).2
      = Except.ok (processContainers 90 0 Counters.zero
          [⟨"c", some []⟩]).1 :=
  (blob_counter_invariants 90 0 "c" Counters.zero
    (⟨"x", none, 0⟩, DeleteOutcome.success) [⟨"c", some []⟩]
    ⟨some "acct", none⟩ ⟨0, true, true, [⟨"c", some []⟩]⟩ 90).2.2.2
    rfl rfl rfl rfl

/-- C5: a missing required environment variable (the storage account name
for the blob job; the server or the database name for the database job)
makes the run raise a configuration error with an empty action trace:
nothing is connected, enumerated or deleted, whatever the world. -/
theorem missing_env_is_immediate_config_error
    (envB : BlobEnv) (wB : BlobWorld) (envD : DbEnv) (wD : DbWorld)
    (hB : isBlank envB.storage_account_name = true)
    (hD : isBlank envD.sql_server = true
          ∨ isBlank envD.sql_database = true) :
    blobMain envB wB = ([], Except.error JobError.config)
  ∧ dbMain envD wD = ([], Except.error JobError.config) := by
  constructor
  · cases h : resolveRetention envB.retention_days with
    | none => simp [blobMain, h]
    | some r => simp [blobMain, h, hB]
  · have : (isBlank envD.sql_server || isBlank envD.sql_database) = true := by
      rcases hD with h | h <;> simp [h]
    simp [dbMain, this]

/-- C5 witness: unset `STORAGE_ACCOUNT_NAME`, unset `SQL_SERVER`. -/
theorem missing_env_is_immediate_config_error_witness :
    blobMain ⟨none, none⟩ ⟨0, true, true, []⟩
      = ([], Except.error JobError.config)
  ∧ dbMain ⟨none, some "db", 90⟩
      ⟨0, true, true, true, true, fun _ => QueryFault.ok, []⟩
      = ([], Except.error JobError.config) :=
  missing_env_is_immediate_config_error ⟨none, none⟩ ⟨0, true, true, []⟩
    ⟨none, some "db", 90⟩ ⟨0, true, true, true, true, fun _ => QueryFault.ok, []⟩
    rfl (Or.inl rfl)

/-- C2 counterexample: in a run whose first (MSI) connection attempt
succeeds — so no connection failure ever occurs — the job has
nevertheless already acquired the access token: the trace starts with the
token acquisition, before the MSI attempt, and the run ends successfully
connected via MSI.  This refutes "only on failure of that attempt does it
acquire an explicit access token from the identity provider". -/
theorem db_token_acquired_without_msi_failure :
    (dbMain ⟨some "srv", some "db", 90⟩
        ⟨0, true, true, true, true, fun _ => QueryFault.ok, []⟩).2
      = Except.ok (ConnMethod.msi, [], 0)
  ∧ (dbMain ⟨some "srv", some "db", 90⟩
        ⟨0, true, true, true, true, fun _ => QueryFault.ok, []⟩).1
      = [DbAction.getToken, DbAction.attemptMSI, DbAction.versionQuery,
         DbAction.catalogQuery "Logs", DbAction.warnSkip "Logs",
         DbAction.catalogQuery "AuditTrail", DbAction.warnSkip "AuditTrail"] :=
  ⟨rfl, rfl⟩

/-- C2 (amended): the job acquires the access token up front, before the
first connection attempt; it first tries the connection with MSI
authentication embedded in the connection string; only on failure of that
attempt does it reconnect injecting the pre-acquired token as a
connection attribute; if that second attempt also fails, the job raises
fatally. -/
theorem db_auth_upfront_token_then_fallback (env : DbEnv) (w : DbWorld)
    (hs : isBlank env.sql_server = false)
    (hd : isBlank env.sql_database = false)
    (ht : w.tokenAcqOk = true) (hv : w.versionOk = true) :
    (dbMain env w).1.head? = some DbAction.getToken
  ∧ (w.msiOk = true →
      DbAction.attemptToken ∉ (dbMain env w).1
      ∧ ∃ db2 tot, (dbMain env w).2 = Except.ok (ConnMethod.msi, db2, tot))
  ∧ (w.msiOk = false → w.tokenOk = true →
      (∃ rest, (dbMain env w).1
        = DbAction.getToken :: DbAction.attemptMSI :: DbAction.attemptToken
            :: DbAction.versionQuery :: rest)
      ∧ ∃ db2 tot, (dbMain env w).2 = Except.ok (ConnMethod.token, db2, tot))
  ∧ (w.msiOk = false → w.tokenOk = false →
      dbMain env w
        = ([DbAction.getToken, DbAction.attemptMSI, DbAction.attemptToken],
           Except.error JobError.fatal)) := by
  refine ⟨?_, ?_, ?_, ?_⟩
  · cases hm : w.msiOk with
    | true => rw [dbMain_msi env w hs hd ht hm hv]; rfl
    | false =>
        cases hk : w.tokenOk with
        | true => rw [dbMain_token env w hs hd ht hm hk hv]; rfl
        | false => simp [dbMain, hs, hd, ht, hm, hk]
  · intro hm
    rw [dbMain_msi env w hs hd ht hm hv]
    refine ⟨?_, _, _, rfl⟩
    intro hmem
    rcases List.mem_append.mp hmem with h | h
    · simp at h
    · exact runQueries_no_conn _ _ _ _ _ _ h
  · intro hm hk
    rw [dbMain_token env w hs hd ht hm hk hv]
    exact ⟨⟨_, rfl⟩, _, _, rfl⟩
  · intro hm hk
    simp [dbMain, hs, hd, ht, hm, hk]

/-- C2 witness: MSI refused, token fallback succeeds — the run connects
with the token and proceeds. -/
theorem db_auth_upfront_token_then_fallback_witness :
    ∃ db2 tot,
      (dbMain ⟨some "srv", some "db", 90⟩
          ⟨0, true, false, true, true, fun _ => QueryFault.ok, []⟩).2
        = Except.ok (ConnMethod.token, db2, tot) :=
  ((db_auth_upfront_token_then_fallback ⟨some "srv", some "db", 90⟩
      ⟨0, true, false, true, true, fun _ => QueryFault.ok, []⟩
      rfl rfl rfl rfl).2.2.1 rfl rfl).2

/-- C3: if the delete statement for one of the two target tables raises,
the rollback leaves that table's rows untouched, the error is absorbed
(the run still ends in a successful return), and the loop still attempts
the other (next) table. -/
theorem db_delete_failure_rolls_back_and_continues (env : DbEnv)
    (w : DbWorld)
    (hs : isBlank env.sql_server = false)
    (hd : isBlank env.sql_database = false)
    (ht : w.tokenAcqOk = true) (hv : w.versionOk = true)
    (hc : w.msiOk = true ∨ w.tokenOk = true) :
    (w.fault 0 = QueryFault.deleteFail →
        (∃ m db2 tot, (dbMain env w).2 = Except.ok (m, db2, tot)
            ∧ dbLookup db2 "Logs" = dbLookup w.db "Logs")
      ∧ DbAction.catalogQuery "AuditTrail" ∈ (dbMain env w).1)
  ∧ (w.fault 1 = QueryFault.deleteFail →
        ∃ m db2 tot, (dbMain env w).2 = Except.ok (m, db2, tot)
          ∧ dbLookup db2 "AuditTrail" = dbLookup w.db "AuditTrail") := by
  obtain ⟨m, pre, hpre, heq⟩ := dbMain_connected env w hs hd ht hv hc
  constructor
  · intro hf0
    constructor
    · refine ⟨m, _, _, by rw [heq], ?_⟩
      rw [runQueries_pair_db, hf0, (runQuery_deleteFail _ _ _ _).1]
      exact runQuery_db_other _ _ _ _ _ _ _ extract_audit (by decide)
    · rw [heq]
      apply List.mem_append_right
      rw [runQueries_pair_trace]
      apply List.mem_append_right
      apply List.mem_append_left
      exact runQuery_catalog_mem _ _ _ _ _ _ extract_audit
  · intro hf1
    refine ⟨m, _, _, by rw [heq], ?_⟩
    rw [runQueries_pair_db, hf1, (runQuery_deleteFail _ _ _ _).1]
    exact runQuery_db_other _ _ _ _ _ _ _ extract_logs (by decide)

/-- C3 witness: the `Logs` delete raises; the job still queries the
catalog for `AuditTrail`. -/
theorem db_delete_failure_rolls_back_and_continues_witness :
    DbAction.catalogQuery "AuditTrail"
      ∈ (dbMain ⟨some "srv", some "db", 90⟩
          ⟨0, true, true, true, true,
           (fun i => match i with
             | 0 => QueryFault.deleteFail
             | _ => QueryFault.ok),
           [("Logs", [-100]), ("AuditTrail", [-100])]⟩).1 :=
  ((db_delete_failure_rolls_back_and_continues
      ⟨some "srv", some "db", 90⟩
      ⟨0, true, true, true, true,
       (fun i => match i with
         | 0 => QueryFault.deleteFail
         | _ => QueryFault.ok),
       [("Logs", [-100]), ("AuditTrail", [-100])]⟩
      rfl rfl rfl rfl (Or.inl rfl)).1 rfl).2

/-- C4: a target table absent from the schema catalog gets zero delete
statements and zero count queries; the absence is logged as a warning
(`warnSkip`), not as an error (`errorRollback`), and the run continues —
the other table is still attempted and the job returns successfully. -/
theorem db_missing_table_skipped (env : DbEnv) (w : DbWorld)
    (hs : isBlank env.sql_server = false)
    (hd : isBlank env.sql_database = false)
    (ht : w.tokenAcqOk = true) (hv : w.versionOk = true)
    (hc : w.msiOk = true ∨ w.tokenOk = true) :
    (dbLookup w.db "Logs" = none → w.fault 0 ≠ QueryFault.catalogFail →
        DbAction.deleteExec "Logs" ∉ (dbMain env w).1
      ∧ DbAction.countQuery "Logs" ∉ (dbMain env w).1
      ∧ DbAction.warnSkip "Logs" ∈ (dbMain env w).1
      ∧ DbAction.errorRollback "Logs" ∉ (dbMain env w).1
      ∧ DbAction.catalogQuery "AuditTrail" ∈ (dbMain env w).1
      ∧ ∃ m db2 tot, (dbMain env w).2 = Except.ok (m, db2, tot))
  ∧ (dbLookup w.db "AuditTrail" = none →
      w.fault 1 ≠ QueryFault.catalogFail →
        DbAction.deleteExec "AuditTrail" ∉ (dbMain env w).1
      ∧ DbAction.countQuery "AuditTrail" ∉ (dbMain env w).1
      ∧ DbAction.warnSkip "AuditTrail" ∈ (dbMain env w).1
      ∧ DbAction.errorRollback "AuditTrail" ∉ (dbMain env w).1
      ∧ ∃ m db2 tot, (dbMain env w).2 = Except.ok (m, db2, tot)) := by
  obtain ⟨m, pre, hpre, heq⟩ := dbMain_connected env w hs hd ht hv hc
  constructor
  · intro habs hf
    have hq0 : runQuery env.retention_days w.now (w.fault 0) w.db logsQuery
        = (w.db, 0,
           [DbAction.catalogQuery "Logs", DbAction.warnSkip "Logs"]) :=
      runQuery_absent _ _ _ _ _ _ extract_logs habs hf
    refine ⟨?_, ?_, ?_, ?_, ?_, m, _, _, by rw [heq]⟩
    · intro hmem
      rcases (dbMain_loop_action_mem env w hs hd ht hv hc (DbAction.deleteExec "Logs") rfl).mp hmem
        with h | h
      · rw [hq0] at h; simp at h
      · have := runQuery_tbl _ _ _ _ _ _ extract_audit _ h
        simp [DbAction.tbl] at this
    · intro hmem
      rcases (dbMain_loop_action_mem env w hs hd ht hv hc (DbAction.countQuery "Logs") rfl).mp hmem
        with h | h
      · rw [hq0] at h; simp at h
      · have := runQuery_tbl _ _ _ _ _ _ extract_audit _ h
        simp [DbAction.tbl] at this
    · apply (dbMain_loop_action_mem env w hs hd ht hv hc (DbAction.warnSkip "Logs") rfl).mpr
      rw [hq0]
      simp
    · intro hmem
      rcases (dbMain_loop_action_mem env w hs hd ht hv hc (DbAction.errorRollback "Logs") rfl).mp hmem
        with h | h
      · rw [hq0] at h; simp at h
      · have := runQuery_tbl _ _ _ _ _ _ extract_audit _ h
        simp [DbAction.tbl] at this
    · apply (dbMain_loop_action_mem env w hs hd ht hv hc (DbAction.catalogQuery "AuditTrail") rfl).mpr
      exact Or.inr (runQuery_catalog_mem _ _ _ _ _ _ extract_audit)
  · intro habs hf
    have habs2 : dbLookup (runQuery env.retention_days w.now (w.fault 0)
        w.db logsQuery).1 "AuditTrail" = none := by
      rw [runQuery_db_other _ _ _ _ _ _ _ extract_logs (by decide)]
      exact habs
    have hq1 : runQuery env.retention_days w.now (w.fault 1)
        (runQuery env.retention_days w.now (w.fault 0) w.db logsQuery).1
        auditQuery
        = ((runQuery env.retention_days w.now (w.fault 0) w.db
            logsQuery).1, 0,
           [DbAction.catalogQuery "AuditTrail",
            DbAction.warnSkip "AuditTrail"]) :=
      runQuery_absent _ _ _ _ _ _ extract_audit habs2 hf
    refine ⟨?_, ?_, ?_, ?_, m, _, _, by rw [heq]⟩
    · intro hmem
      rcases (dbMain_loop_action_mem env w hs hd ht hv hc (DbAction.deleteExec "AuditTrail") rfl).mp hmem
        with h | h
      · have := runQuery_tbl _ _ _ _ _ _ extract_logs _ h
        simp [DbAction.tbl] at this
      · rw [hq1] at h; simp at h
    · intro hmem
      rcases (dbMain_loop_action_mem env w hs hd ht hv hc (DbAction.countQuery "AuditTrail") rfl).mp hmem
        with h | h
      · have := runQuery_tbl _ _ _ _ _ _ extract_logs _ h
        simp [DbAction.tbl] at this
      · rw [hq1] at h; simp at h
    · apply (dbMain_loop_action_mem env w hs hd ht hv hc (DbAction.warnSkip "AuditTrail") rfl).mpr
      rw [hq1]
      simp
    · intro hmem
      rcases (dbMain_loop_action_mem env w hs hd ht hv hc (DbAction.errorRollback "AuditTrail") rfl).mp hmem
        with h | h
      · have := runQuery_tbl _ _ _ _ _ _ extract_logs _ h
        simp [DbAction.tbl] at this
      · rw [hq1] at h; simp at h

/-- C4 witness: `Logs` missing from the catalog — its absence is logged
as a skip warning. -/
theorem db_missing_table_skipped_witness :
    DbAction.warnSkip "Logs"
      ∈ (dbMain ⟨some "srv", some "db", 90⟩
          ⟨0, true, true, true, true, fun _ => QueryFault.ok,
           [("AuditTrail", [])]⟩).1 :=
  ((db_missing_table_skipped ⟨some "srv", some "db", 90⟩
      ⟨0, true, true, true, true, fun _ => QueryFault.ok,
       [("AuditTrail", [])]⟩
      rfl rfl rfl rfl (Or.inl rfl)).1 rfl (by decide)).2.2.1

/-- C9: the table name used for the existence check is the text of each
fixed statement between `FROM` and `WHERE`, stripped — the split-index
parse of the source — and over the fixed pair it yields exactly `Logs`
and `AuditTrail`. -/
theorem table_names_from_fixed_statements :
    cleanup_queries.map extractTableName
      = [some "Logs", some "AuditTrail"]
  ∧ extractTableName logsQuery = some "Logs"
  ∧ extractTableName auditQuery = some "AuditTrail" := by
  decide

end AzureAdmin
